import Mathlib

/-!
Verification of the DatasetPipeline repository: a shallow embedding of the
history-mining and snapshot pipeline (commit indexing with tag resolution,
commit slicing, two-tier snapshot export, diff computation, metadata
aggregation, and the per-commit orchestration loop), together with theorems
settling the specification's claims about it.

Modelling conventions:
* Python strings are Lean `String`s; the handful of Python string operations
  the code uses (`strip`, `lower`, `split`, `endswith`, slicing) are
  re-implemented below over `String.data` so that every definition is
  executable and kernel-reducible.
* Commit timestamps are modelled as `Int` seconds.  The indexer emits UTC
  ISO-8601 strings, whose lexicographic order coincides with chronological
  order, so sorting by the string key is sorting by this integer; interval
  arithmetic on `datetime`/`timedelta` values is integer arithmetic on
  seconds.
* Python's `sorted`/`list.sort` is a stable sort; a stable sort is uniquely
  determined by the key relation, so it is modelled by `List.insertionSort`
  (stable, executable).  `reverse=True` is the stable sort under the
  reversed key comparison.
* Fallible Python code (raised exceptions) is modelled with `Except String`;
  external `git` subprocess calls are modelled as oracle functions supplied
  as explicit arguments, keyed by the exact argument lists the code builds.
-/

/-! ## Python string primitives -/

/-- Characters Python's `str.strip()` removes (ASCII whitespace). -/
def pyIsSpace (c : Char) : Bool :=
  c = ' ' || c = '\t' || c = '\n' || c = '\r' || c = '\x0b' || c = '\x0c'

/-- Python `str.strip()`: drop leading and trailing whitespace. -/
def pyStrip (s : String) : String :=
  ⟨((s.data.dropWhile pyIsSpace).reverse.dropWhile pyIsSpace).reverse⟩

/-- Python `str.lower()` (ASCII range, which is all the pipeline feeds it). -/
def pyLower (s : String) : String :=
  ⟨s.data.map Char.toLower⟩

def isAsciiDigit (c : Char) : Bool :=
  '0' ≤ c && c ≤ '9'

/-- After the first digit of a Python integer literal: digits with single
underscores allowed only between digits. -/
def pyDigitsRest : List Char → Bool
  | [] => true
  | '_' :: c :: rest => isAsciiDigit c && pyDigitsRest rest
  | c :: rest => isAsciiDigit c && pyDigitsRest rest

/-- Digit part of a Python integer literal: nonempty, starts with a digit,
underscores only between digits. -/
def pyDigitsOk : List Char → Bool
  | [] => false
  | c :: rest => isAsciiDigit c && pyDigitsRest rest

def pyDigitsVal (cs : List Char) : Nat :=
  cs.foldl (fun acc c => if c = '_' then acc else acc * 10 + (c.toNat - '0'.toNat)) 0

/-- Python `int(s)`: surrounding whitespace allowed, optional single sign,
then digits with underscores between digits.  `none` models the raised
`ValueError`. -/
def pyInt (s : String) : Option Int :=
  match (pyStrip s).data with
  | '+' :: rest => if pyDigitsOk rest then some (pyDigitsVal rest) else none
  | '-' :: rest => if pyDigitsOk rest then some (-(pyDigitsVal rest : Int)) else none
  | t => if pyDigitsOk t then some (pyDigitsVal t) else none

/-- Python `s.endswith(suf)`. -/
def strEndsWith (s suf : String) : Bool :=
  suf.data.reverse.isPrefixOf s.data.reverse

/-- Python slice `s[:-n]`. -/
def strDropRight (s : String) (n : Nat) : String :=
  ⟨(s.data.reverse.drop n).reverse⟩

/-- The remainder of `l` after the last occurrence of the (non-self-
overlapping) separator `sep`; `none` when `sep` does not occur. -/
def afterLastAux (sep : List Char) : List Char → Option (List Char)
  | [] => none
  | c :: rest =>
    match afterLastAux sep rest with
    | some r => some r
    | none => if sep.isPrefixOf (c :: rest) then some ((c :: rest).drop sep.length) else none

/-- Python `s.split(sep)[-1]` for a non-self-overlapping separator: the whole
string when the separator is absent, else everything after its last
occurrence. -/
def strAfterLast (s sep : String) : String :=
  match afterLastAux sep.data s.data with
  | some r => ⟨r⟩
  | none => s

/-- Python `s.split()` (no argument): split on whitespace runs, dropping
empty pieces.  The accumulator holds the current word reversed. -/
def wsSplitAux : List Char → List Char → List (List Char)
  | [], acc => if acc = [] then [] else [acc.reverse]
  | c :: rest, acc =>
    if pyIsSpace c then
      if acc = [] then wsSplitAux rest [] else acc.reverse :: wsSplitAux rest []
    else wsSplitAux rest (c :: acc)

def pySplitWs (s : String) : List String :=
  (wsSplitAux s.data []).map fun cs => ⟨cs⟩

/-- Python `s.split(sep)` for a single-character separator: keeps empty
pieces. -/
def charSplit (sep : Char) : List Char → List (List Char)
  | [] => [[]]
  | c :: rest =>
    if c = sep then [] :: charSplit sep rest
    else
      match charSplit sep rest with
      | [] => [[c]]
      | p :: ps => (c :: p) :: ps

def pySplitChar (s : String) (sep : Char) : List String :=
  (charSplit sep s.data).map fun cs => ⟨cs⟩

/-- Python truthiness-based `a or b` for optional strings (`None` and the
empty string are falsy). -/
def pyOrStr (a b : Option String) : Option String :=
  match a with
  | some s => if s = "" then b else some s
  | none => b

/-- Python truthiness-based `a or b` where the left operand is an optional
number (`None` and `0` are falsy). -/
def pyOrNat (a b : Option Nat) : Option Nat :=
  match a with
  | some n => if n ≠ 0 then some n else b
  | none => b

/-- Python truthiness-based `a or b` for lists (an empty list is falsy). -/
def pyOrList (a b : List String) : List String :=
  if a = [] then b else a

instance {ε α : Type} [DecidableEq ε] [DecidableEq α] : DecidableEq (Except ε α)
  | .error x, .error y =>
    if h : x = y then isTrue (by subst h; rfl)
    else isFalse (by intro hh; exact h (Except.error.inj hh))
  | .error _, .ok _ => isFalse (by intro hh; exact Except.noConfusion hh)
  | .ok _, .error _ => isFalse (by intro hh; exact Except.noConfusion hh)
  | .ok x, .ok y =>
    if h : x = y then isTrue (by subst h; rfl)
    else isFalse (by intro hh; exact h (Except.ok.inj hh))

example : pyInt "  30 " = some 30 := by decide
example : pyInt "3_0" = some 30 := by decide
example : pyInt "-4" = some (-4) := by decide
example : pyInt "3 0" = none := by decide
example : pyInt "_3" = none := by decide
example : pyInt "3_" = none := by decide
example : pySplitWs "  a   bc " = ["a", "bc"] := by decide
example : pySplitChar "1\t2\tx.py" '\t' = ["1", "2", "x.py"] := by decide
example : strAfterLast "refs/tags/v1" "refs/tags/" = "v1" := by decide
example : pyLower (pyStrip " 30D ") = "30d" := by decide

/-! ## Data model: commit records (pipeline/01_index_repo.py, §3 of the spec)

A commit record as produced by the indexer; the fields the slicer, diff
builder and orchestrator consult.  The `timestamp` field is the UTC
ISO-8601 string modelled as integer seconds (see the header comment). -/

structure Commit where
  hash : String
  parent : Option String := none
  timestamp : Int := 0
  tags : List String := []
  deriving DecidableEq, Repr

/-! ## Commit slicer (transformers-temporal-benchmark/pipeline/slicer.py) -/

/-- Seconds in the units accepted by `_parse_interval` (timedelta values are
modelled as seconds). -/
def secondsPerDay : Int := 86400
def secondsPerWeek : Int := 604800
def secondsPerHour : Int := 3600
def secondsPerMinute : Int := 60

/-- The range check of Python's `timedelta` constructor: normalization
floor-divides the total seconds into a day count, which must have magnitude
at most 999999999; outside that range the constructor raises
`OverflowError`.  `Int.fdiv` is Python's floor division. -/
def timedelta_ok (sec : Int) : Bool :=
  -999999999 ≤ Int.fdiv sec 86400 && Int.fdiv sec 86400 ≤ 999999999

/-- From `_parse_interval` in slicer.py.  Returns `.ok none` for a falsy
input (`None` or the empty string), the parsed `timedelta` in seconds for a
recognized suffix, and `.error` for an unrecognized suffix, a prefix that
`int()` rejects, or a value outside the `timedelta` constructor's range
(its `OverflowError`). -/
def parse_interval (interval : Option String) : Except String (Option Int) :=
  match interval with
  | none => .ok none
  | some s =>
    if s = "" then .ok none
    else
      let t := pyLower (pyStrip s)
      if strEndsWith t "d" then
        match pyInt (strDropRight t 1) with
        | some n =>
          if timedelta_ok (n * secondsPerDay) then .ok (some (n * secondsPerDay))
          else .error "OverflowError: normalized days out of range"
        | none => .error "invalid literal for int()"
      else if strEndsWith t "w" then
        match pyInt (strDropRight t 1) with
        | some n =>
          if timedelta_ok (n * secondsPerWeek) then .ok (some (n * secondsPerWeek))
          else .error "OverflowError: normalized days out of range"
        | none => .error "invalid literal for int()"
      else if strEndsWith t "h" then
        match pyInt (strDropRight t 1) with
        | some n =>
          if timedelta_ok (n * secondsPerHour) then .ok (some (n * secondsPerHour))
          else .error "OverflowError: normalized days out of range"
        | none => .error "invalid literal for int()"
      else if strEndsWith t "m" then
        match pyInt (strDropRight t 1) with
        | some n =>
          if timedelta_ok (n * secondsPerMinute) then .ok (some (n * secondsPerMinute))
          else .error "OverflowError: normalized days out of range"
        | none => .error "invalid literal for int()"
      else .error ("Unsupported interval format: " ++ t)

/-- From `_is_release_tag` in slicer.py. -/
def is_release_tag (tag : String) : Bool :=
  let t := pyLower tag
  t.startsWith "v" || t.data.any isAsciiDigit

/-- From `_apply_limit` in slicer.py: `items[: max(limit, 0)]`. -/
def apply_limit (items : List Commit) (limit : Option Int) : List Commit :=
  match limit with
  | none => items
  | some n => items.take (max n 0).toNat

/-- Stable ascending sort by timestamp: `sorted(commits, key=timestamp)`. -/
def sortTsAsc (l : List Commit) : List Commit :=
  List.insertionSort (fun a b => a.timestamp ≤ b.timestamp) l

/-- Stable descending sort by timestamp:
`sorted(commits, key=timestamp, reverse=True)`. -/
def sortTsDesc (l : List Commit) : List Commit :=
  List.insertionSort (fun a b => b.timestamp ≤ a.timestamp) l

/-- From `_slice_commit_mode` in slicer.py. -/
def slice_commit_mode (commits : List Commit) : List Commit :=
  commits

/-- From `_slice_tag_mode` in slicer.py: commits whose tag list is truthy. -/
def slice_tag_mode (commits : List Commit) : List Commit :=
  commits.filter fun c => !c.tags.isEmpty

/-- From `_slice_release_mode` in slicer.py. -/
def slice_release_mode (commits : List Commit) : List Commit :=
  commits.filter fun c => c.tags.any is_release_tag

/-- The selection loop of `_slice_interval_mode`: walk the ordered commits
carrying the last selected timestamp (`last_ts`); select a commit when there
is no prior selection or `ts - last_ts >= interval`. -/
def interval_loop (interval : Int) : List Commit → Option Int → List Commit
  | [], _ => []
  | c :: rest, none => c :: interval_loop interval rest (some c.timestamp)
  | c :: rest, some last =>
    if interval ≤ c.timestamp - last then c :: interval_loop interval rest (some c.timestamp)
    else interval_loop interval rest (some last)

/-- From `_slice_interval_mode` in slicer.py.  Note the guard `if not
interval` is timedelta falsiness: a zero interval returns the input
unchanged. -/
def slice_interval_mode (commits : List Commit) (interval : Int) : List Commit :=
  if interval = 0 then commits
  else if commits = [] then []
  else sortTsDesc (interval_loop interval (sortTsAsc commits) none)

/-- The mode dispatch of `slice_commits` in slicer.py (everything before its
final `return _apply_limit(sliced, limit)` line): lowercase the mode,
normalize to descending timestamp order, and run the mode filter, raising on
an unknown mode or a missing/invalid interval in time-interval mode. -/
def slice_dispatch (commits : List Commit) (mode : String) (interval : Option String) :
    Except String (List Commit) :=
  let m := pyLower mode
  let commits_sorted := sortTsDesc commits
  if m = "commit" then .ok (slice_commit_mode commits_sorted)
  else if m = "tag" then .ok (slice_tag_mode commits_sorted)
  else if m = "release" then .ok (slice_release_mode commits_sorted)
  else if m = "time-interval" then
    match parse_interval interval with
    | .error e => .error e
    | .ok none => .error "time-interval mode requires a valid interval string (e.g. 30d)."
    | .ok (some delta) => .ok (slice_interval_mode commits_sorted delta)
  else .error ("Unsupported slice mode: " ++ m)

/-- From `slice_commits` in slicer.py: the mode dispatch followed by the
optional cap. -/
def slice_commits (commits : List Commit) (mode : String) (interval : Option String)
    (limit : Option Int) : Except String (List Commit) :=
  (slice_dispatch commits mode interval).map fun l => apply_limit l limit

example : parse_interval (some "30d") = .ok (some (30 * 86400)) := by decide
example : parse_interval (some " 2W ") = .ok (some (2 * 604800)) := by decide
example : parse_interval (some "30D") = .ok (some (30 * 86400)) := by decide
example : parse_interval (some "0d") = .ok (some 0) := by decide
example : parse_interval (some "5x") = .error "Unsupported interval format: 5x" := by decide
example : parse_interval (some "xd") = .error "invalid literal for int()" := by decide
example : parse_interval (some "999999999d") = .ok (some (999999999 * 86400)) := by decide
example : (parse_interval (some "1000000000d")).isOk = false := by decide
example : (parse_interval (some "-1000000000d")).isOk = false := by decide
example : parse_interval (some "23999999999h") = .ok (some (23999999999 * 3600)) := by decide
example : (parse_interval (some "24000000000h")).isOk = false := by decide
example : (parse_interval (some "142857142w")).isOk = true := by decide
example : (parse_interval (some "142857143w")).isOk = false := by decide
example : (parse_interval (some "-23999999976h")).isOk = true := by decide
example : (parse_interval (some "-23999999977h")).isOk = false := by decide
example : parse_interval none = .ok none := by decide
example : parse_interval (some "") = .ok none := by decide
example :
    slice_commits [⟨"a", none, 5, []⟩, ⟨"b", none, 9, ["v1"]⟩] "tag" none none
      = .ok [⟨"b", none, 9, ["v1"]⟩] := by decide
example :
    slice_commits [⟨"a", none, 0, []⟩, ⟨"b", none, 600, []⟩, ⟨"c", none, 900, []⟩]
      "time-interval" (some "10m") none
      = .ok [⟨"b", none, 600, []⟩, ⟨"a", none, 0, []⟩] := by decide

/-! ## Tag resolver (pipeline/01_index_repo.py, `_collect_tags`)

The subprocess call `git show-ref --tags -d` is modelled by its output
lines; a `CalledProcessError` there makes the Python function return an
empty map before any line is processed, so the line-processing logic below
is exactly the behaviour under scrutiny.  Python dicts are modelled as
insertion-ordered association lists (Python dicts preserve insertion order;
assignment to an existing key keeps its position). -/

/-- The commit-to-tags mapping built by the resolver. -/
abbrev TagMap := List (String × List String)

/-- Python dict lookup on an association list. -/
def dictLookup {β : Type} (m : List (String × β)) (k : String) : Option β :=
  match m with
  | [] => none
  | (k', v) :: rest => if k' = k then some v else dictLookup rest k

/-- Python `d[k] = v`: update in place when the key exists, else append. -/
def alistSet (m : List (String × String)) (k v : String) : List (String × String) :=
  match m with
  | [] => [(k, v)]
  | (k', v') :: rest => if k' = k then (k, v) :: rest else (k', v') :: alistSet rest k v

/-- Python `d.pop(k, None)`'s effect on the dict. -/
def alistPop (m : List (String × String)) (k : String) : List (String × String) :=
  match m with
  | [] => []
  | (k', v') :: rest => if k' = k then rest else (k', v') :: alistPop rest k

/-- Python `tags.setdefault(sha, []).append(tag_name)`. -/
def tagsAppend (m : TagMap) (k tag : String) : TagMap :=
  match m with
  | [] => [(k, [tag])]
  | (k', l) :: rest => if k' = k then (k', l ++ [tag]) :: rest else (k', l) :: tagsAppend rest k tag

/-- The line loop of `_collect_tags`: blank lines are skipped; a line must
split into exactly `sha ref` (else the tuple unpacking raises); a ref ending
in the dereference suffix is recorded immediately and clears any pending
entry for that tag; any other ref is held as a pending candidate. -/
def collect_tags_loop :
    List String → TagMap → List (String × String) → Except String (TagMap × List (String × String))
  | [], tags, pending => .ok (tags, pending)
  | line :: rest, tags, pending =>
    if pyStrip line = "" then collect_tags_loop rest tags pending
    else
      match pySplitWs line with
      | [sha, ref] =>
        if strEndsWith ref "^\x7b\x7d" then
          let tag_name := strDropRight (strAfterLast ref "refs/tags/") 3
          collect_tags_loop rest (tagsAppend tags sha tag_name) (alistPop pending tag_name)
        else
          let tag_name := strAfterLast ref "refs/tags/"
          collect_tags_loop rest tags (alistSet pending tag_name sha)
      | _ => .error "ValueError: not enough values to unpack"

/-- From `_collect_tags` in 01_index_repo.py, applied to the reference
listing's lines: run the line loop, then commit every pending candidate
(lightweight tags with no dereference entry) into the map in insertion
order. -/
def collect_tags (lines : List String) : Except String TagMap :=
  match collect_tags_loop lines [] [] with
  | .error e => .error e
  | .ok (tags, pending) => .ok (pending.foldl (fun m kv => tagsAppend m kv.2 kv.1) tags)

/-- Python dict equality (order-insensitive): same size and every key of `a`
maps to the same value in `b`.  Adequate for the key-distinct maps compared
here. -/
def dictEquiv (a b : TagMap) : Bool :=
  a.length == b.length && a.all fun kv => dictLookup b kv.1 == some kv.2

example :
    collect_tags ["t1 refs/tags/v1", "c1 refs/tags/v1^\x7b\x7d", "d1 refs/tags/v2"]
      = .ok [("c1", ["v1"]), ("d1", ["v2"])] := by decide

example :
    collect_tags ["c1 refs/tags/v1^\x7b\x7d", "t1 refs/tags/v1", "d1 refs/tags/v2"]
      = .ok [("c1", ["v1"]), ("t1", ["v1"]), ("d1", ["v2"])] := by decide

/-! ## Diff builder (transformers-temporal-benchmark/pipeline/04_diff_snapshot.py)

The `git` subprocess layer (`_git`) is modelled as an oracle: first-parent
resolution (`rev-parse commit^`, whose `CalledProcessError` on a root commit
becomes `none`), and the stdout of a `git` invocation keyed by the exact
argument list `_collect_numstat`/`_collect_patch` build. -/

structure GitRunner where
  rev_parse_parent : String → Option String
  run_stdout : List String → String

/-- A `files_changed` entry: `{path, lines_added, lines_deleted}`. -/
structure FileStat where
  path : String
  lines_added : Int
  lines_deleted : Int
  deriving DecidableEq, Repr

/-- From `_get_parent` in 04_diff_snapshot.py. -/
def get_parent (env : GitRunner) (commit : String) : Option String :=
  env.rev_parse_parent commit

/-- Argument list `_collect_numstat` passes to git. -/
def numstat_args (parent : Option String) (commit : String) : List String :=
  match parent with
  | some p => ["diff", "--numstat", p, commit]
  | none => ["diff", "--numstat", "--root", commit]

/-- Argument list `_collect_patch` passes to git. -/
def patch_args (parent : Option String) (commit : String) : List String :=
  match parent with
  | some p => ["diff", p, commit]
  | none => ["diff", "--root", commit]

/-- One line of the numstat loop body: skip a blank line, require exactly
three tab-separated fields (the tuple unpacking raises otherwise), treat a
`-` added marker as a binary file recorded with zero counts, otherwise parse
both counts with `int()` (raising on a non-integer). -/
def parse_numstat_line (line : String) : Except String (Option FileStat) :=
  if pyStrip line = "" then .ok none
  else
    match pySplitChar line '\t' with
    | [added_str, deleted_str, path] =>
      if added_str = "-" then .ok (some ⟨path, 0, 0⟩)
      else
        match pyInt added_str, pyInt deleted_str with
        | some a, some d => .ok (some ⟨path, a, d⟩)
        | _, _ => .error "invalid literal for int()"
    | _ => .error "ValueError: not enough values to unpack"

/-- The accumulation loop of `_collect_numstat` over the stdout lines: the
running totals of the Python loop are the structural recursion below (same
per-line contributions, same list order). -/
def collect_numstat_lines : List String → Except String (List FileStat × Int × Int)
  | [] => .ok ([], 0, 0)
  | line :: rest =>
    match parse_numstat_line line with
    | .error e => .error e
    | .ok none => collect_numstat_lines rest
    | .ok (some f) =>
      match collect_numstat_lines rest with
      | .error e => .error e
      | .ok (fs, ta, td) => .ok (f :: fs, f.lines_added + ta, f.lines_deleted + td)

/-- From `_collect_numstat` in 04_diff_snapshot.py: run git with the
parent-or-root argument list and fold its `stdout.strip().splitlines()`
lines. -/
def collect_numstat (env : GitRunner) (parent : Option String) (commit : String) :
    Except String (List FileStat × Int × Int) :=
  collect_numstat_lines (pySplitChar (pyStrip (env.run_stdout (numstat_args parent commit))) '\n')

/-- From `_collect_patch` in 04_diff_snapshot.py. -/
def collect_patch (env : GitRunner) (parent : Option String) (commit : String) : String :=
  env.run_stdout (patch_args parent commit)

/-- The diff document: `{commit, parent, files_changed, lines_added,
lines_deleted, patch}`. -/
structure DiffRecord where
  commit : String
  parent : Option String
  files_changed : List FileStat
  lines_added : Int
  lines_deleted : Int
  patch : String
  deriving DecidableEq, Repr

/-- From `build_diff` in 04_diff_snapshot.py. -/
def build_diff (env : GitRunner) (commit : String) : Except String DiffRecord :=
  let parent := get_parent env commit
  match collect_numstat env parent commit with
  | .error e => .error e
  | .ok (files_changed, lines_added, lines_deleted) =>
    .ok { commit := commit, parent := parent, files_changed := files_changed,
          lines_added := lines_added, lines_deleted := lines_deleted,
          patch := collect_patch env parent commit }

example :
    collect_numstat_lines ["3\t1\ta.py", "-\t-\tlogo.png", "", "0\t2\tb.py"]
      = .ok ([⟨"a.py", 3, 1⟩, ⟨"logo.png", 0, 0⟩, ⟨"b.py", 0, 2⟩], 3, 3) := by decide

/-! ## Snapshot exporter (pipeline/02_export_snapshot.py)

The two extraction tiers are filesystem/subprocess effects; each is an
oracle returning either the `source/` tree it populated or the exception it
raised.  `archive_tree excl` is the outcome of `_run_git_archive` (stream
the archive built with the pathspec exclusions derived from `excl`, unpack,
rename the root to `source/`); `worktree_add` is the `git worktree add`
step of `_run_git_worktree`, and `copy_tree patterns` its
`shutil.copytree` with the given ignore patterns. -/

abbrev SourceTree := List String

structure ExportEnv where
  archive_tree : List String → Except String SourceTree
  worktree_add : Except String Unit
  copy_tree : List String → Except String SourceTree

def DEFAULT_EXCLUDES : List String := ["tests", "docs"]

/-- From `_run_git_worktree` in 02_export_snapshot.py: add a detached
temporary working copy, copy it into `source/` ignoring `.git` plus the
exclusion patterns, and tear the temporary copy down in a `finally` block
(the returned flag records that the teardown ran). -/
def run_git_worktree (env : ExportEnv) (excl : List String) :
    Except String SourceTree × Bool :=
  match env.worktree_add with
  | .error e => (.error e, true)
  | .ok _ =>
    match env.copy_tree (".git" :: excl) with
    | .error e => (.error e, true)
    | .ok t => (.ok t, true)

/-- From `checkout_and_export` in 02_export_snapshot.py (the two-tier
extraction logic; the surrounding destination-directory reset and metadata
write are filesystem bookkeeping outside the claims): build the exclusion
set from the defaults plus the caller's additions, try the archive tier,
and on any exception fall back to the working-copy tier with the same
exclusion set. -/
def checkout_and_export (env : ExportEnv) (extra_exclude : List String) :
    Except String SourceTree :=
  let excludes := DEFAULT_EXCLUDES ++ extra_exclude
  match env.archive_tree excludes with
  | .ok t => .ok t
  | .error _ => (run_git_worktree env excludes).1

/-! ## Metadata aggregator (pipeline/05_build_metadata.py)

`build_metadata` reads three JSON documents and walks the materialized
source tree; the documents are modelled as structured inputs (a missing
document is the empty dict, i.e. every `get` yields its default), and the
`source/` walk as an optional list of directory entries (`none` models a
missing `source/` directory, entries carry the `is_file` predicate of the
walk). -/

/-- One entry of `source_dir.rglob` in `_count_files_and_languages`. -/
structure FsEntry where
  path : String
  is_file : Bool
  deriving DecidableEq, Repr

/-- Python `PurePath.name`: the final path component. -/
def path_name (p : String) : String :=
  strAfterLast p "/"

/-- Python `PurePath.suffix`: the final component's extension from its last
dot, empty when the dot is absent, leading, or trailing. -/
def path_suffix (p : String) : String :=
  let name := (path_name p).data
  let pre := name.reverse.takeWhile fun c => c ≠ '.'
  if pre.length = name.length then ""
  else if pre.length = 0 then ""
  else if pre.length = name.length - 1 then ""
  else ⟨'.' :: pre.reverse⟩

/-- From `_count_files_and_languages` in 05_build_metadata.py: walk the
tree counting regular files, bucketing `.py` files as `python` and
everything else as `other`.  The Python `languages` dict has at most the two
keys `python`/`other`, so it is modelled by the two counters. -/
def count_files_and_languages (source_dir : Option (List FsEntry)) : Nat × Nat × Nat :=
  match source_dir with
  | none => (0, 0, 0)
  | some entries =>
    entries.foldl
      (fun acc e =>
        if e.is_file then
          if pyLower (path_suffix e.path) = ".py" then (acc.1 + 1, acc.2.1 + 1, acc.2.2)
          else (acc.1 + 1, acc.2.1, acc.2.2 + 1)
        else acc)
      (0, 0, 0)

/-- Python `sorted(languages.keys())` for the two-bucket dict:
alphabetically, `"other" < "python"`. -/
def languages_keys_sorted (python other : Nat) : List String :=
  (if 0 < other then ["other"] else []) ++ (if 0 < python then ["python"] else [])

/-- One file's entry in the structural-analysis document (`parsed.json`).
A `get` with a default models a missing key, so the error-shaped variant
`{error, loc}` is the record with empty sequences. -/
structure AstFileInfo where
  functions : List String := []
  classes : List String := []
  imports : List String := []
  calls : List String := []
  loc : Nat := 0
  deriving DecidableEq, Repr

/-- The structural-analysis document: `files` keyed by relative path. -/
structure ParsedDoc where
  files : List (String × AstFileInfo) := []
  deriving DecidableEq, Repr

structure AstSummary where
  files : Nat
  functions : Nat
  classes : Nat
  imports : Nat
  calls : Nat
  loc : Nat
  deriving DecidableEq, Repr

/-- From `_summarize_ast` in 05_build_metadata.py. -/
def summarize_ast (parsed : ParsedDoc) : AstSummary :=
  { files := parsed.files.length,
    functions := (parsed.files.map fun kv => kv.2.functions.length).sum,
    classes := (parsed.files.map fun kv => kv.2.classes.length).sum,
    imports := (parsed.files.map fun kv => kv.2.imports.length).sum,
    calls := (parsed.files.map fun kv => kv.2.calls.length).sum,
    loc := (parsed.files.map fun kv => kv.2.loc).sum }

/-- The snapshot metadata document (`metadata.json` written at export time);
`none` fields model absent keys (`dict.get` defaults). -/
structure SnapshotMeta where
  commit : Option String := none
  timestamp : Option String := none
  message : Option String := none
  parent : Option String := none
  loc : Option Nat := none
  deriving DecidableEq, Repr

/-- The diff document as read back by the aggregator; a missing `diff.json`
is the record of defaults. -/
structure DiffDoc where
  commit : Option String := none
  parent : Option String := none
  files_changed : List FileStat := []
  lines_added : Int := 0
  lines_deleted : Int := 0
  deriving DecidableEq, Repr

/-- The aggregated metadata record assembled by `build_metadata`. -/
structure MetaRecord where
  commit : Option String
  timestamp : Option String
  message : Option String
  parent : Option String
  num_files : Nat
  loc : Option Nat
  languages : List String
  stats_files_changed : List FileStat
  stats_lines_added : Int
  stats_lines_deleted : Int
  ast_summary : AstSummary
  deriving DecidableEq, Repr

/-- From `build_metadata` in 05_build_metadata.py: count files/languages,
summarize the structural document, pick `loc` by Python truthiness
(`ast_summary.get("loc") or base_meta.get("loc")` — the summary's `loc` key
is always present, so the fallback fires exactly when it is `0`), and
assemble the record. -/
def build_metadata (base_meta : SnapshotMeta) (parsed : ParsedDoc) (diff : DiffDoc)
    (source_dir : Option (List FsEntry)) : MetaRecord :=
  let counts := count_files_and_languages source_dir
  let ast_summary := summarize_ast parsed
  let loc_total := pyOrNat (some ast_summary.loc) base_meta.loc
  { commit := pyOrStr base_meta.commit diff.commit,
    timestamp := base_meta.timestamp,
    message := base_meta.message,
    parent := pyOrStr diff.parent base_meta.parent,
    num_files := counts.1,
    loc := loc_total,
    languages := pyOrList (languages_keys_sorted counts.2.1 counts.2.2) ["python"],
    stats_files_changed := diff.files_changed,
    stats_lines_added := diff.lines_added,
    stats_lines_deleted := diff.lines_deleted,
    ast_summary := ast_summary }

example : path_suffix "src/a/B.PY" = ".PY" := by decide
example : path_suffix "src/a.dir/README" = "" := by decide
example : path_suffix "src/.hidden" = "" := by decide
example :
    (build_metadata {} {} {} (some [⟨"src/a.py", true⟩, ⟨"src", false⟩, ⟨"doc.txt", true⟩])).languages
      = ["other", "python"] := by decide

/-! ## Pipeline orchestrator (pipeline/run_pipeline.py)

The per-commit processing sequence (`process_commit`: export, parse, diff,
aggregate, each able to raise) is an oracle `process`; the orchestration
under scrutiny is the slicing call, the `try/except` loop accumulating
`{commit, error}` failures, and the summary construction. -/

structure FailureEntry where
  commit : String
  error : String
  deriving DecidableEq, Repr

structure RunSummary where
  total_commits : Nat
  processed : Int
  failed : List FailureEntry
  deriving DecidableEq, Repr

/-- The `for commit in sliced` loop of `run_pipeline`: every exception from
a commit's processing is caught and appended to the failures list; the loop
always continues to the next commit. -/
def run_failures (process : Commit → Except String Unit) (sliced : List Commit) :
    List FailureEntry :=
  sliced.foldl
    (fun failures c =>
      match process c with
      | .ok _ => failures
      | .error e => failures ++ [⟨c.hash, e⟩])
    []

/-- From `run_pipeline` in run_pipeline.py (repository acquisition,
indexing and artifact writes elided; `commits` is the indexed list): slice,
process every selected commit under the per-commit exception barrier, and
build the summary with `processed = len(sliced) - len(failures)`. -/
def run_pipeline (process : Commit → Except String Unit) (commits : List Commit)
    (mode : String) (interval : Option String) (limit : Option Int) :
    Except String RunSummary :=
  match slice_commits commits mode interval limit with
  | .error e => .error e
  | .ok sliced =>
    .ok { total_commits := commits.length,
          processed := (sliced.length : Int) - (run_failures process sliced).length,
          failed := run_failures process sliced }

/-! ## Specification-side definitions

Definitions below follow the words of individual claims (not the source);
each is compared against the corresponding source-derived definition by a
refinement theorem or counterexample. -/

/-- Modelled from the claim's words (C9's interval grammar): the written
form of an integer — an optional minus sign then decimal digits. -/
def spec_int_literal : List Char → Bool
  | '-' :: rest => !rest.isEmpty && rest.all isAsciiDigit
  | cs => !cs.isEmpty && cs.all isAsciiDigit

/-- Modelled from the claim's words (C9): a valid interval specifier is an
integer immediately followed by one of the suffixes d, w, h, m. -/
def spec_interval_valid (s : String) : Bool :=
  ["d", "w", "h", "m"].any fun suf =>
    strEndsWith s suf && spec_int_literal (strDropRight s 1).data

/-- Modelled from the claim's words (C4): time-interval slicing sorts the
commits ascending by timestamp, runs the greedy minimum-spacing selection
from no prior selection, and returns the selection re-sorted descending —
with no special case. -/
def spec_interval_slice (commits : List Commit) (interval : Int) : List Commit :=
  sortTsDesc (interval_loop interval (sortTsAsc commits) none)

/-- The seconds per unit named by a recognized interval suffix of the
(trimmed, lowercased) specifier; `none` for any other suffix. -/
def suffix_unit (t : String) : Option Int :=
  if strEndsWith t "d" then some secondsPerDay
  else if strEndsWith t "w" then some secondsPerWeek
  else if strEndsWith t "h" then some secondsPerHour
  else if strEndsWith t "m" then some secondsPerMinute
  else none

/-- Part of the flat characterization (amended C9) of when `slice_commits`
raises: an interval specifier is rejected when it is absent or empty, or
(after trimming surrounding whitespace and lowercasing) does not end in one
of d/w/h/m, or its part before the suffix is rejected by Python's `int()`,
or the resulting value lies outside the `timedelta` constructor's range. -/
def interval_bad : Option String → Bool
  | none => true
  | some s =>
    if s = "" then true
    else
      match suffix_unit (pyLower (pyStrip s)) with
      | none => true
      | some unit =>
        match pyInt (strDropRight (pyLower (pyStrip s)) 1) with
        | none => true
        | some n => ! timedelta_ok (n * unit)

/-- The flat characterization (amended C9) of when `slice_commits` raises a
configuration error: the lowercased mode is unknown, or it is time-interval
and the interval specifier is rejected per `interval_bad`. -/
def slice_config_error (mode : String) (interval : Option String) : Bool :=
  if pyLower mode = "commit" || pyLower mode = "tag" || pyLower mode = "release" then false
  else if pyLower mode = "time-interval" then interval_bad interval
  else true

/-! ## Concrete inputs used by witnesses and counterexamples -/

/-- A git oracle for a root commit `c0`: parent resolution fails and the
root-form numstat query returns one changed file. -/
def diffEnvRoot : GitRunner :=
  ⟨fun _ => none,
   fun args => if args = ["diff", "--numstat", "--root", "c0"] then "1\t2\tx.py" else "PATCH"⟩

/-- The diff record `build_diff diffEnvRoot "c0"` produces. -/
def diffDocRoot : DiffRecord :=
  { commit := "c0", parent := none, files_changed := [⟨"x.py", 1, 2⟩],
    lines_added := 1, lines_deleted := 2, patch := "PATCH" }

/-- An export environment whose archive tier fails and whose fallback copy
succeeds. -/
def exportEnvFallback : ExportEnv :=
  ⟨fun _ => .error "git archive failed", .ok (), fun _ => .ok ["x.py"]⟩

/-- A per-commit processor that raises exactly on the commit named bad. -/
def wProcess : Commit → Except String Unit :=
  fun c => if c.hash = "bad" then .error "boom" else .ok ()

def wCommits : List Commit :=
  [⟨"good1", none, 30, []⟩, ⟨"bad", none, 20, []⟩, ⟨"good2", none, 10, []⟩]

/-! ## Helper lemmas -/

theorem pyOrList_ne_nil (a : List String) : pyOrList a ["python"] ≠ [] := by
  unfold pyOrList
  split
  · simp
  · assumption

theorem count_files_none_regular (entries : List FsEntry)
    (h : entries.all (fun e => !e.is_file) = true) :
    count_files_and_languages (some entries) = (0, 0, 0) := by
  unfold count_files_and_languages
  induction entries with
  | nil => rfl
  | cons e rest ih =>
    simp only [List.all_cons, Bool.and_eq_true, Bool.not_eq_true'] at h
    simp only [List.foldl_cons, h.1, if_false, Bool.false_eq_true]
    exact ih (by simpa using h.2)

/-! ## C10: degenerate source trees default the language list -/

/-- C10: for a snapshot whose materialized source tree is missing or
contains no regular files, `build_metadata` reports `num_files = 0` and
`languages = ["python"]`; moreover no input whatsoever can produce an empty
`languages` list, because the empty key set is replaced by the default
singleton. -/
theorem build_metadata_language_default (base_meta : SnapshotMeta) (parsed : ParsedDoc)
    (diff : DiffDoc) (source_dir : Option (List FsEntry))
    (h : (source_dir.getD []).all (fun e => !e.is_file) = true) :
    (build_metadata base_meta parsed diff source_dir).num_files = 0 ∧
    (build_metadata base_meta parsed diff source_dir).languages = ["python"] ∧
    ∀ (b : SnapshotMeta) (pa : ParsedDoc) (d : DiffDoc) (sd : Option (List FsEntry)),
      (build_metadata b pa d sd).languages ≠ [] := by
  have hc : count_files_and_languages source_dir = (0, 0, 0) := by
    cases source_dir with
    | none => rfl
    | some entries => exact count_files_none_regular entries (by simpa using h)
  refine ⟨?_, ?_, ?_⟩
  · simp [build_metadata, hc]
  · simp [build_metadata, hc, languages_keys_sorted, pyOrList]
  · intro b pa d sd
    simp only [build_metadata]
    exact pyOrList_ne_nil _

/-- C10 witness: a source tree holding only a directory entry. -/
theorem build_metadata_language_default_witness :
    ((some [(⟨"sub", false⟩ : FsEntry)]).getD []).all (fun e => !e.is_file) = true ∧
    ((build_metadata {} {} {} (some [⟨"sub", false⟩])).num_files = 0 ∧
     (build_metadata {} {} {} (some [⟨"sub", false⟩])).languages = ["python"] ∧
     ∀ (b : SnapshotMeta) (pa : ParsedDoc) (d : DiffDoc) (sd : Option (List FsEntry)),
       (build_metadata b pa d sd).languages ≠ []) :=
  ⟨by decide, build_metadata_language_default {} {} {} (some [⟨"sub", false⟩]) (by decide)⟩

/-! ## C7: the authoritative loc value -/

/-- C7 (counterexample): the structural summary's count is always present
(an empty analysis yields the present value `0`), yet `build_metadata`
falls back to the snapshot metadata's count whenever the structural count
is `0` — Python `or` tests truthiness, not presence.  The claim's reading
(use the structural count whenever present) would give `some 0` here. -/
theorem build_metadata_loc_zero_counterexample :
    (summarize_ast {}).loc = 0 ∧
    (build_metadata { loc := some 42 } {} {} none).loc = some 42 := by
  exact ⟨rfl, rfl⟩

/-- C7 (amended): `loc` is the structural analyzer's total line count (the
sum of the per-file counts) whenever that total is nonzero, and otherwise
is exactly the snapshot metadata's count; it is always one of the two
values, never a combination. -/
theorem build_metadata_loc_preference (base_meta : SnapshotMeta) (parsed : ParsedDoc)
    (diff : DiffDoc) (source_dir : Option (List FsEntry)) :
    (summarize_ast parsed).loc = (parsed.files.map fun kv => kv.2.loc).sum ∧
    (((build_metadata base_meta parsed diff source_dir).loc = some (summarize_ast parsed).loc ∧
        (summarize_ast parsed).loc ≠ 0) ∨
      ((build_metadata base_meta parsed diff source_dir).loc = base_meta.loc ∧
        (summarize_ast parsed).loc = 0)) := by
  refine ⟨rfl, ?_⟩
  by_cases hz : (summarize_ast parsed).loc = 0
  · exact Or.inr ⟨by simp [build_metadata, pyOrNat, hz], hz⟩
  · exact Or.inl ⟨by simp [build_metadata, pyOrNat, hz], hz⟩

/-! ## C2: two-tier export -/

/-- C2: the primary archive tier is attempted first (its success is
returned as-is); on any primary failure the fallback runs with the same
exclusion set (defaults plus caller additions, with the version-control
metadata directory added to the copy's ignore patterns); the fallback's
temporary working copy is torn down whether or not its copy step succeeds;
the export succeeds exactly when some tier succeeds, and a successful
return carries the tree produced by one of the two tiers. -/
theorem checkout_and_export_two_tier (env : ExportEnv) (extra_exclude : List String) :
    (run_git_worktree env (DEFAULT_EXCLUDES ++ extra_exclude)).2 = true ∧
    (checkout_and_export env extra_exclude).isOk =
      ((env.archive_tree (DEFAULT_EXCLUDES ++ extra_exclude)).isOk ||
        (run_git_worktree env (DEFAULT_EXCLUDES ++ extra_exclude)).1.isOk) ∧
    (∀ t, checkout_and_export env extra_exclude = .ok t →
      env.archive_tree (DEFAULT_EXCLUDES ++ extra_exclude) = .ok t ∨
        env.copy_tree (".git" :: (DEFAULT_EXCLUDES ++ extra_exclude)) = .ok t) ∧
    (∀ t, env.archive_tree (DEFAULT_EXCLUDES ++ extra_exclude) = .ok t →
      checkout_and_export env extra_exclude = .ok t) := by
  unfold checkout_and_export run_git_worktree
  cases ha : env.archive_tree (DEFAULT_EXCLUDES ++ extra_exclude) <;>
    cases hw : env.worktree_add <;>
      cases hc : env.copy_tree (".git" :: (DEFAULT_EXCLUDES ++ extra_exclude)) <;>
        simp [Except.isOk, Except.toBool, ha, hw, hc]

/-- C2 witness: the two-tier theorem applied to `exportEnvFallback`. -/
theorem checkout_and_export_two_tier_witness :
    (run_git_worktree exportEnvFallback (DEFAULT_EXCLUDES ++ ["assets"])).2 = true ∧
    (checkout_and_export exportEnvFallback ["assets"]).isOk =
      ((exportEnvFallback.archive_tree (DEFAULT_EXCLUDES ++ ["assets"])).isOk ||
        (run_git_worktree exportEnvFallback (DEFAULT_EXCLUDES ++ ["assets"])).1.isOk) ∧
    (∀ t, checkout_and_export exportEnvFallback ["assets"] = .ok t →
      exportEnvFallback.archive_tree (DEFAULT_EXCLUDES ++ ["assets"]) = .ok t ∨
        exportEnvFallback.copy_tree (".git" :: (DEFAULT_EXCLUDES ++ ["assets"])) = .ok t) ∧
    (∀ t, exportEnvFallback.archive_tree (DEFAULT_EXCLUDES ++ ["assets"]) = .ok t →
      checkout_and_export exportEnvFallback ["assets"] = .ok t) :=
  checkout_and_export_two_tier exportEnvFallback ["assets"]

/-- C7 witness: instantiation of the loc-preference theorem at a concrete
analysis document and snapshot metadata. -/
theorem build_metadata_loc_preference_witness :
    (summarize_ast ⟨[("a.py", { loc := 7 })]⟩).loc
        = ((⟨[("a.py", { loc := 7 })]⟩ : ParsedDoc).files.map fun kv => kv.2.loc).sum ∧
    (((build_metadata { loc := some 42 } ⟨[("a.py", { loc := 7 })]⟩ {} none).loc
          = some (summarize_ast ⟨[("a.py", { loc := 7 })]⟩).loc ∧
        (summarize_ast ⟨[("a.py", { loc := 7 })]⟩).loc ≠ 0) ∨
      ((build_metadata { loc := some 42 } ⟨[("a.py", { loc := 7 })]⟩ {} none).loc
          = ({ loc := some 42 } : SnapshotMeta).loc ∧
        (summarize_ast ⟨[("a.py", { loc := 7 })]⟩).loc = 0)) :=
  build_metadata_loc_preference { loc := some 42 } ⟨[("a.py", { loc := 7 })]⟩ {} none

/-! ## C5: parent resolution and the empty-tree comparison -/

/-- C5: `build_diff` records an absent parent exactly when first-parent
resolution fails; for a root commit both the per-file numeric stats and the
patch are computed with the `--root` (empty-tree) argument lists, and for a
non-root commit with the resolved first parent. -/
theorem build_diff_parent_resolution (env : GitRunner) (c : String) (doc : DiffRecord)
    (h : build_diff env c = .ok doc) :
    (doc.parent = none ↔ env.rev_parse_parent c = none) ∧
    doc.parent = env.rev_parse_parent c ∧
    (env.rev_parse_parent c = none →
      collect_numstat_lines
          (pySplitChar (pyStrip (env.run_stdout ["diff", "--numstat", "--root", c])) '\n')
        = .ok (doc.files_changed, doc.lines_added, doc.lines_deleted) ∧
      doc.patch = env.run_stdout ["diff", "--root", c]) ∧
    (∀ p, env.rev_parse_parent c = some p →
      collect_numstat_lines
          (pySplitChar (pyStrip (env.run_stdout ["diff", "--numstat", p, c])) '\n')
        = .ok (doc.files_changed, doc.lines_added, doc.lines_deleted) ∧
      doc.patch = env.run_stdout ["diff", p, c]) := by
  have hb : build_diff env c
      = match collect_numstat_lines (pySplitChar (pyStrip
            (env.run_stdout (numstat_args (env.rev_parse_parent c) c))) '\n') with
        | .error e => .error e
        | .ok (fs, ta, td) =>
          .ok { commit := c, parent := env.rev_parse_parent c, files_changed := fs,
                lines_added := ta, lines_deleted := td,
                patch := env.run_stdout (patch_args (env.rev_parse_parent c) c) } := rfl
  rw [hb] at h
  cases hp : env.rev_parse_parent c with
  | none =>
    rw [hp] at h
    simp only [numstat_args, patch_args] at h
    cases hn : collect_numstat_lines
        (pySplitChar (pyStrip (env.run_stdout ["diff", "--numstat", "--root", c])) '\n') with
    | error e => rw [hn] at h; exact absurd h (by simp)
    | ok v =>
      obtain ⟨fs, ta, td⟩ := v
      rw [hn] at h
      cases h
      simp [hn]
  | some p =>
    rw [hp] at h
    simp only [numstat_args, patch_args] at h
    cases hn : collect_numstat_lines
        (pySplitChar (pyStrip (env.run_stdout ["diff", "--numstat", p, c])) '\n') with
    | error e => rw [hn] at h; exact absurd h (by simp)
    | ok v =>
      obtain ⟨fs, ta, td⟩ := v
      rw [hn] at h
      cases h
      refine ⟨by simp, by simp, by simp, ?_⟩
      intro q hq
      cases hq
      simp [hn]

/-- C5 witness: the parent-resolution theorem applied to the root-commit
oracle `diffEnvRoot`. -/
theorem build_diff_parent_resolution_witness :
    build_diff diffEnvRoot "c0" = .ok diffDocRoot ∧
    ((diffDocRoot.parent = none ↔ diffEnvRoot.rev_parse_parent "c0" = none) ∧
      diffDocRoot.parent = diffEnvRoot.rev_parse_parent "c0" ∧
      (diffEnvRoot.rev_parse_parent "c0" = none →
        collect_numstat_lines (pySplitChar (pyStrip
            (diffEnvRoot.run_stdout ["diff", "--numstat", "--root", "c0"])) '\n')
          = .ok (diffDocRoot.files_changed, diffDocRoot.lines_added, diffDocRoot.lines_deleted) ∧
        diffDocRoot.patch = diffEnvRoot.run_stdout ["diff", "--root", "c0"]) ∧
      (∀ p, diffEnvRoot.rev_parse_parent "c0" = some p →
        collect_numstat_lines (pySplitChar (pyStrip
            (diffEnvRoot.run_stdout ["diff", "--numstat", p, "c0"])) '\n')
          = .ok (diffDocRoot.files_changed, diffDocRoot.lines_added, diffDocRoot.lines_deleted) ∧
        diffDocRoot.patch = diffEnvRoot.run_stdout ["diff", p, "c0"])) :=
  ⟨by decide, build_diff_parent_resolution diffEnvRoot "c0" diffDocRoot (by decide)⟩

/-! ## C8: the cap invariant -/

/-- C8: for every mode that returns normally, a cap of `N` truncates the
unfiltered result to its first `min(N, length)` elements (so the capped
result's length is `min(N, length)`), a cap of `0` — and any negative cap,
treated as `0` — yields the empty result, and the uncapped call is the
unfiltered result itself. -/
theorem slice_commits_cap (commits : List Commit) (mode : String) (interval : Option String)
    (n : Int) (l : List Commit) (h : slice_commits commits mode interval none = .ok l) :
    slice_commits commits mode interval (some n) = .ok (l.take (max n 0).toNat) ∧
    (l.take (max n 0).toNat).length = min (max n 0).toNat l.length ∧
    (n ≤ 0 → slice_commits commits mode interval (some n) = .ok []) := by
  unfold slice_commits at h ⊢
  cases hd : slice_dispatch commits mode interval with
  | error e => rw [hd] at h; exact absurd h (by simp [Except.map])
  | ok v =>
    rw [hd] at h
    simp only [Except.map, apply_limit] at h
    cases h
    refine ⟨by simp [Except.map, apply_limit], List.length_take _ _, ?_⟩
    intro hn
    have hz : (max n 0).toNat = 0 := by omega
    simp [Except.map, apply_limit, hz]

/-- C8 witness: a cap of 2 on the commit-mode result of a 3-commit list. -/
theorem slice_commits_cap_witness :
    slice_commits wCommits "commit" none none = .ok wCommits ∧
    (slice_commits wCommits "commit" none (some 2) = .ok (wCommits.take (max (2 : Int) 0).toNat) ∧
      (wCommits.take (max (2 : Int) 0).toNat).length = min (max (2 : Int) 0).toNat wCommits.length ∧
      ((2 : Int) ≤ 0 → slice_commits wCommits "commit" none (some 2) = .ok [])) :=
  ⟨by decide, slice_commits_cap wCommits "commit" none 2 wCommits (by decide)⟩

/-! ## C1: per-commit failure isolation in the orchestrator -/

theorem run_failures_foldl (process : Commit → Except String Unit) :
    ∀ (l : List Commit) (acc : List FailureEntry),
      l.foldl
          (fun failures c =>
            match process c with
            | .ok _ => failures
            | .error e => failures ++ [⟨c.hash, e⟩])
          acc
        = acc ++ l.filterMap fun c =>
            match process c with
            | .error e => some ⟨c.hash, e⟩
            | .ok _ => none := by
  intro l
  induction l with
  | nil => intro acc; simp
  | cons c rest ih =>
    intro acc
    cases hpc : process c with
    | ok u => simp [List.foldl_cons, List.filterMap_cons, hpc, ih]
    | error e => simp [List.foldl_cons, List.filterMap_cons, hpc, ih]

theorem filter_ok_filterMap_err_length (process : Commit → Except String Unit)
    (l : List Commit) :
    (l.filter fun c => (process c).isOk).length
      + (l.filterMap fun c =>
          match process c with
          | .error e => some (⟨c.hash, e⟩ : FailureEntry)
          | .ok _ => none).length
      = l.length := by
  induction l with
  | nil => rfl
  | cons c rest ih =>
    cases hpc : process c with
    | ok u =>
      simp [List.filter_cons, List.filterMap_cons, hpc, Except.isOk, Except.toBool] at ih ⊢
      omega
    | error e =>
      simp [List.filter_cons, List.filterMap_cons, hpc, Except.isOk, Except.toBool] at ih ⊢
      omega

/-- C1: whenever slicing succeeds, the orchestrator catches every per-commit
exception, records exactly the raising commits (in order, with their error
text) in the failures list while still visiting every remaining selected
commit, and reports a processed count equal to the number of selected
commits that did not raise — which is the number of sliced commits minus
the number of failures. -/
theorem run_pipeline_isolation (process : Commit → Except String Unit) (commits : List Commit)
    (mode : String) (interval : Option String) (limit : Option Int) (sliced : List Commit)
    (h : slice_commits commits mode interval limit = .ok sliced) :
    run_pipeline process commits mode interval limit
      = .ok { total_commits := commits.length,
              processed := ((sliced.filter fun c => (process c).isOk).length : Int),
              failed := sliced.filterMap fun c =>
                match process c with
                | .error e => some ⟨c.hash, e⟩
                | .ok _ => none } := by
  have hf : run_failures process sliced
      = sliced.filterMap fun c =>
          match process c with
          | .error e => some ⟨c.hash, e⟩
          | .ok _ => none := by
    unfold run_failures
    simpa using run_failures_foldl process sliced []
  have hlen := filter_ok_filterMap_err_length process sliced
  simp only [run_pipeline, h, hf]
  refine congrArg Except.ok ?_
  congr 1
  omega

/-- C1 witness: a three-commit slice whose middle commit raises. -/
theorem run_pipeline_isolation_witness :
    slice_commits wCommits "commit" none none = .ok wCommits ∧
    run_pipeline wProcess wCommits "commit" none none
      = .ok { total_commits := wCommits.length,
              processed := ((wCommits.filter fun c => (wProcess c).isOk).length : Int),
              failed := wCommits.filterMap fun c =>
                match wProcess c with
                | .error e => some ⟨c.hash, e⟩
                | .ok _ => none } :=
  ⟨by decide, run_pipeline_isolation wProcess wCommits "commit" none none wCommits (by decide)⟩

/-! ## C3: tag resolution and listing order -/

/-- C3 (counterexample): when a tag's dereferenced line precedes its direct
line, the direct line re-enters the pending map after the dereference
already cleared it, so the lightweight-candidate sweep also records the tag
against the tag-object id: annotated `v1` (object `t1`, dereferencing to
commit `c1`) and lightweight `v2` (at `d1`) yield a three-key map, not the
claimed two-key map — the result is not order-independent. -/
theorem collect_tags_order_counterexample :
    collect_tags ["c1 refs/tags/v1^\x7b\x7d", "t1 refs/tags/v1", "d1 refs/tags/v2"]
      = .ok [("c1", ["v1"]), ("t1", ["v1"]), ("d1", ["v2"])] ∧
    dictEquiv [("c1", ["v1"]), ("t1", ["v1"]), ("d1", ["v2"])] [("c1", ["v1"]), ("d1", ["v2"])]
      = false ∧
    dictLookup [("c1", ["v1"]), ("t1", ["v1"]), ("d1", ["v2"])] "t1" = some ["v1"] := by
  refine ⟨by decide, by decide, by decide⟩

/-- C3 (amended): a tag appearing both directly and dereferenced resolves
only to the dereferenced commit provided its direct line precedes its
dereferenced line — the order `git show-ref --tags -d` emits.  For annotated
`v1` (object `t1`, dereferenced commit `c1`) and lightweight `v2` (at `d1`),
the three orders respecting that constraint each yield exactly
`(c1, [v1]), (d1, [v2])` as a dict, and the three orders violating it do
not. -/
theorem collect_tags_direct_line_first :
    ((collect_tags ["t1 refs/tags/v1", "c1 refs/tags/v1^\x7b\x7d", "d1 refs/tags/v2"]).map
        fun m => dictEquiv m [("c1", ["v1"]), ("d1", ["v2"])]) = .ok true ∧
    ((collect_tags ["t1 refs/tags/v1", "d1 refs/tags/v2", "c1 refs/tags/v1^\x7b\x7d"]).map
        fun m => dictEquiv m [("c1", ["v1"]), ("d1", ["v2"])]) = .ok true ∧
    ((collect_tags ["d1 refs/tags/v2", "t1 refs/tags/v1", "c1 refs/tags/v1^\x7b\x7d"]).map
        fun m => dictEquiv m [("c1", ["v1"]), ("d1", ["v2"])]) = .ok true ∧
    ((collect_tags ["c1 refs/tags/v1^\x7b\x7d", "t1 refs/tags/v1", "d1 refs/tags/v2"]).map
        fun m => dictEquiv m [("c1", ["v1"]), ("d1", ["v2"])]) = .ok false ∧
    ((collect_tags ["c1 refs/tags/v1^\x7b\x7d", "d1 refs/tags/v2", "t1 refs/tags/v1"]).map
        fun m => dictEquiv m [("c1", ["v1"]), ("d1", ["v2"])]) = .ok false ∧
    ((collect_tags ["d1 refs/tags/v2", "c1 refs/tags/v1^\x7b\x7d", "t1 refs/tags/v1"]).map
        fun m => dictEquiv m [("c1", ["v1"]), ("d1", ["v2"])]) = .ok false := by
  refine ⟨by decide, by decide, by decide, by decide, by decide, by decide⟩

/-! ## C6: aggregate counts and binary markers -/

theorem charSplit_of_not_mem (sep : Char) (cs : List Char) (h : sep ∉ cs) :
    charSplit sep cs = [cs] := by
  induction cs with
  | nil => rfl
  | cons c rest ih =>
    simp only [List.mem_cons, not_or] at h
    simp only [charSplit]
    rw [if_neg fun hh => h.1 hh.symm, ih h.2]

theorem pyStrip_head_not_space (c : Char) (cs : List Char) (h : pyIsSpace c = false) :
    pyStrip ⟨c :: cs⟩ ≠ "" := by
  unfold pyStrip
  intro heq
  have hd : (((c :: cs).dropWhile pyIsSpace).reverse.dropWhile pyIsSpace).reverse = [] :=
    congrArg String.data heq
  rw [List.dropWhile_cons, if_neg (by simp [h])] at hd
  rw [List.reverse_eq_nil_iff, List.dropWhile_eq_nil_iff] at hd
  have := hd c (by simp)
  simp [h] at this

theorem parse_numstat_line_binary (p : String) (hp : '\t' ∉ p.data) :
    parse_numstat_line ("-\t-\t" ++ p) = .ok (some ⟨p, 0, 0⟩) := by
  have hdata : ("-\t-\t" ++ p).data = '-' :: '\t' :: '-' :: '\t' :: p.data := rfl
  have hne : pyStrip ("-\t-\t" ++ p) ≠ "" := by
    have hs : ("-\t-\t" ++ p) = ⟨'-' :: '\t' :: '-' :: '\t' :: p.data⟩ := congrArg String.mk hdata
    rw [hs]
    exact pyStrip_head_not_space '-' _ (by decide)
  have hsplit : pySplitChar ("-\t-\t" ++ p) '\t' = ["-", "-", p] := by
    unfold pySplitChar
    rw [hdata]
    have h1 : charSplit '\t' p.data = [p.data] := charSplit_of_not_mem '\t' p.data hp
    simp [charSplit, h1]
  unfold parse_numstat_line
  rw [if_neg hne, hsplit]
  simp

/-- C6: whenever the numstat accumulation succeeds, the aggregate
`lines_added` equals the sum of the per-file `lines_added` over the
`files_changed` list (likewise for `lines_deleted`), and every line carrying
the binary marker is recorded as its path with zero added and zero deleted
while still being listed. -/
theorem collect_numstat_aggregate (lines : List String) (fs : List FileStat) (ta td : Int)
    (h : collect_numstat_lines lines = .ok (fs, ta, td)) :
    ta = (fs.map fun f => f.lines_added).sum ∧
    td = (fs.map fun f => f.lines_deleted).sum ∧
    ∀ p : String, ("-\t-\t" ++ p) ∈ lines → '\t' ∉ p.data →
      (⟨p, 0, 0⟩ : FileStat) ∈ fs := by
  induction lines generalizing fs ta td with
  | nil =>
    unfold collect_numstat_lines at h
    cases h
    simp
  | cons line rest ih =>
    unfold collect_numstat_lines at h
    cases hpl : parse_numstat_line line with
    | error e => rw [hpl] at h; exact absurd h (by simp)
    | ok o =>
      rw [hpl] at h
      cases o with
      | none =>
        obtain ⟨h1, h2, h3⟩ := ih fs ta td h
        refine ⟨h1, h2, ?_⟩
        intro p hpmem hptab
        rcases List.mem_cons.mp hpmem with hline | hrest
        · have hb := parse_numstat_line_binary p hptab
          rw [hline] at hb
          rw [hb] at hpl
          exact absurd (Except.ok.inj hpl) (by simp)
        · exact h3 p hrest hptab
      | some f =>
        cases hrest : collect_numstat_lines rest with
        | error e => rw [hrest] at h; exact absurd h (by simp)
        | ok v =>
          obtain ⟨fs', ta', td'⟩ := v
          rw [hrest] at h
          cases h
          obtain ⟨h1, h2, h3⟩ := ih fs' ta' td' hrest
          refine ⟨by simp [h1], by simp [h2], ?_⟩
          intro p hpmem hptab
          rcases List.mem_cons.mp hpmem with hline | hrest2
          · have hb := parse_numstat_line_binary p hptab
            rw [hline] at hb
            have hf : f = ⟨p, 0, 0⟩ := by
              have := Except.ok.inj (hpl.symm.trans hb)
              exact Option.some.inj this
            rw [hf]
            exact List.mem_cons_self _ _
          · exact List.mem_cons_of_mem f (h3 p hrest2 hptab)

/-- C6 witness: one numeric line and one binary-marker line. -/
theorem collect_numstat_aggregate_witness :
    collect_numstat_lines ["3\t1\ta.py", "-\t-\tlogo.png"]
      = .ok ([⟨"a.py", 3, 1⟩, ⟨"logo.png", 0, 0⟩], 3, 1) ∧
    ((3 : Int) = ([(⟨"a.py", 3, 1⟩ : FileStat), ⟨"logo.png", 0, 0⟩].map fun f => f.lines_added).sum ∧
      (1 : Int) = ([(⟨"a.py", 3, 1⟩ : FileStat), ⟨"logo.png", 0, 0⟩].map fun f => f.lines_deleted).sum ∧
      ∀ p : String, ("-\t-\t" ++ p) ∈ ["3\t1\ta.py", "-\t-\tlogo.png"] → '\t' ∉ p.data →
        (⟨p, 0, 0⟩ : FileStat) ∈ [(⟨"a.py", 3, 1⟩ : FileStat), ⟨"logo.png", 0, 0⟩]) :=
  ⟨by decide,
    collect_numstat_aggregate ["3\t1\ta.py", "-\t-\tlogo.png"]
      [⟨"a.py", 3, 1⟩, ⟨"logo.png", 0, 0⟩] 3 1 (by decide)⟩

/-! ## C4: greedy minimum-spacing selection -/

theorem interval_loop_chain_some (interval : Int) (l : List Commit) :
    ∀ last : Int,
      List.Chain' (fun a b => interval ≤ b.timestamp - a.timestamp)
          (interval_loop interval l (some last)) ∧
      ∀ c ∈ (interval_loop interval l (some last)).head?, interval ≤ c.timestamp - last := by
  induction l with
  | nil => intro last; simp [interval_loop]
  | cons c rest ih =>
    intro last
    by_cases hsel : interval ≤ c.timestamp - last
    · simp only [interval_loop, if_pos hsel]
      refine ⟨List.chain'_cons'.mpr ⟨fun b hb => (ih c.timestamp).2 b hb, (ih c.timestamp).1⟩, ?_⟩
      intro x hx
      simp only [List.head?_cons, Option.mem_def, Option.some.injEq] at hx
      rw [← hx]
      exact hsel
    · simp only [interval_loop, if_neg hsel]
      exact ih last

theorem interval_loop_chain (interval : Int) (l : List Commit) :
    List.Chain' (fun a b => interval ≤ b.timestamp - a.timestamp)
      (interval_loop interval l none) := by
  cases l with
  | nil => simp [interval_loop]
  | cons c rest =>
    simp only [interval_loop]
    exact List.chain'_cons'.mpr
      ⟨fun b hb => (interval_loop_chain_some interval rest c.timestamp).2 b hb,
        (interval_loop_chain_some interval rest c.timestamp).1⟩

theorem orderedInsert_append_of_forall_not (r : Commit → Commit → Prop) [DecidableRel r]
    (a : Commit) (l : List Commit) (h : ∀ b ∈ l, ¬ r a b) :
    List.orderedInsert r a l = l ++ [a] := by
  induction l with
  | nil => rfl
  | cons b m ih =>
    simp only [List.orderedInsert]
    rw [if_neg (h b (List.mem_cons_self b m)), ih fun x hx => h x (List.mem_cons_of_mem b hx)]
    rfl

theorem insertionSort_eq_reverse_of_pairwise (r : Commit → Commit → Prop) [DecidableRel r]
    (l : List Commit) (h : List.Pairwise (fun a b => ¬ r a b) l) :
    List.insertionSort r l = l.reverse := by
  induction l with
  | nil => rfl
  | cons a m ih =>
    simp only [List.insertionSort]
    rw [ih (List.Pairwise.of_cons h),
      orderedInsert_append_of_forall_not r a m.reverse
        fun b hb => (List.pairwise_cons.mp h).1 b (List.mem_reverse.mp hb)]
    simp

/-- C4 (amended theorem): for every commit list and every nonzero interval,
`_slice_interval_mode` is exactly the claim's algorithm — sort ascending by
timestamp, greedily select the first commit and every commit at least the
interval after the last selected one, re-sort descending — and consequently
the result read in ascending order (its reverse) has every consecutive
timestamp delta at least the interval.  (A zero interval instead returns
the input unchanged; see the counterexample.) -/
theorem slice_interval_greedy (commits : List Commit) (interval : Int) (h : interval ≠ 0) :
    slice_interval_mode commits interval = spec_interval_slice commits interval ∧
    List.Chain' (fun a b => interval ≤ b.timestamp - a.timestamp)
      (slice_interval_mode commits interval).reverse := by
  have heq : slice_interval_mode commits interval = spec_interval_slice commits interval := by
    unfold slice_interval_mode spec_interval_slice
    rw [if_neg h]
    by_cases hc : commits = []
    · subst hc
      rfl
    · rw [if_neg hc]
  refine ⟨heq, ?_⟩
  rw [heq]
  unfold spec_interval_slice
  have hchain : List.Chain' (fun a b => interval ≤ b.timestamp - a.timestamp)
      (interval_loop interval (sortTsAsc commits) none) :=
    interval_loop_chain interval (sortTsAsc commits)
  rcases lt_or_gt_of_ne h with hneg | hpos
  · haveI : IsTrans Commit (fun a b : Commit => b.timestamp ≤ a.timestamp) :=
      ⟨fun a b c h1 h2 => le_trans h2 h1⟩
    haveI : IsTotal Commit (fun a b : Commit => b.timestamp ≤ a.timestamp) :=
      ⟨fun a b => le_total _ _⟩
    have hsorted : List.Sorted (fun a b : Commit => b.timestamp ≤ a.timestamp)
        (sortTsDesc (interval_loop interval (sortTsAsc commits) none)) :=
      List.sorted_insertionSort _ _
    refine List.Pairwise.chain' ?_
    rw [List.pairwise_reverse]
    exact hsorted.imp fun {a b} hab => by omega
  · have hlt : List.Chain' (fun a b : Commit => a.timestamp < b.timestamp)
        (interval_loop interval (sortTsAsc commits) none) :=
      hchain.imp fun {a b} hab => by omega
    haveI : IsTrans Commit (fun a b : Commit => a.timestamp < b.timestamp) :=
      ⟨fun a b c h1 h2 => lt_trans h1 h2⟩
    have hpair : List.Pairwise (fun a b : Commit => a.timestamp < b.timestamp)
        (interval_loop interval (sortTsAsc commits) none) :=
      List.chain'_iff_pairwise.mp hlt
    have hdesc : sortTsDesc (interval_loop interval (sortTsAsc commits) none)
        = (interval_loop interval (sortTsAsc commits) none).reverse := by
      unfold sortTsDesc
      exact insertionSort_eq_reverse_of_pairwise _ _
        (hpair.imp fun {a b} hab => not_le.mpr hab)
    rw [hdesc, List.reverse_reverse]
    exact hchain

/-- C4 witness: two commits 700 seconds apart under a 600-second interval. -/
theorem slice_interval_greedy_witness :
    ((600 : Int) ≠ 0) ∧
    (slice_interval_mode [⟨"a", none, 0, []⟩, ⟨"b", none, 700, []⟩] 600
        = spec_interval_slice [⟨"a", none, 0, []⟩, ⟨"b", none, 700, []⟩] 600 ∧
      List.Chain' (fun a b => (600 : Int) ≤ b.timestamp - a.timestamp)
        (slice_interval_mode [⟨"a", none, 0, []⟩, ⟨"b", none, 700, []⟩] 600).reverse) :=
  ⟨by decide, slice_interval_greedy [⟨"a", none, 0, []⟩, ⟨"b", none, 700, []⟩] 600 (by decide)⟩

/-- C4 (counterexample): the interval grammar admits `0d`, which parses to a
zero timedelta; on it `_slice_interval_mode` returns the input list
unchanged (timedelta falsiness) instead of the claimed greedy selection
re-sorted descending. -/
theorem slice_interval_zero_counterexample :
    spec_interval_valid "0d" = true ∧
    parse_interval (some "0d") = .ok (some 0) ∧
    slice_interval_mode [⟨"a", none, 0, []⟩, ⟨"b", none, 10, []⟩] 0
      = [⟨"a", none, 0, []⟩, ⟨"b", none, 10, []⟩] ∧
    spec_interval_slice [⟨"a", none, 0, []⟩, ⟨"b", none, 10, []⟩] 0
      = [⟨"b", none, 10, []⟩, ⟨"a", none, 0, []⟩] := by
  refine ⟨by decide, by decide, by decide, by decide⟩

/-! ## C9: configuration errors raised by slicing -/

theorem parse_interval_classify (interval : Option String) :
    (match parse_interval interval with
      | .ok (some _) => true
      | _ => false) = ! interval_bad interval := by
  cases interval with
  | none => rfl
  | some s =>
    simp only [parse_interval, interval_bad, suffix_unit]
    by_cases h5 : s = ""
    · simp [h5]
    · rw [if_neg h5, if_neg h5]
      by_cases h6 : strEndsWith (pyLower (pyStrip s)) "d" = true
      · rw [if_pos h6, if_pos h6]
        cases h7 : pyInt (strDropRight (pyLower (pyStrip s)) 1) with
        | none => simp [h7]
        | some n => cases h8 : timedelta_ok (n * secondsPerDay) <;> simp [h7, h8]
      · rw [if_neg h6, if_neg h6]
        by_cases h7 : strEndsWith (pyLower (pyStrip s)) "w" = true
        · rw [if_pos h7, if_pos h7]
          cases h8 : pyInt (strDropRight (pyLower (pyStrip s)) 1) with
          | none => simp [h8]
          | some n => cases h9 : timedelta_ok (n * secondsPerWeek) <;> simp [h8, h9]
        · rw [if_neg h7, if_neg h7]
          by_cases h8 : strEndsWith (pyLower (pyStrip s)) "h" = true
          · rw [if_pos h8, if_pos h8]
            cases h9 : pyInt (strDropRight (pyLower (pyStrip s)) 1) with
            | none => simp [h9]
            | some n => cases h10 : timedelta_ok (n * secondsPerHour) <;> simp [h9, h10]
          · rw [if_neg h8, if_neg h8]
            by_cases h9 : strEndsWith (pyLower (pyStrip s)) "m" = true
            · rw [if_pos h9, if_pos h9]
              cases h10 : pyInt (strDropRight (pyLower (pyStrip s)) 1) with
              | none => simp [h10]
              | some n => cases h11 : timedelta_ok (n * secondsPerMinute) <;> simp [h10, h11]
            · rw [if_neg h9, if_neg h9]
              rfl

theorem slice_dispatch_isOk (commits : List Commit) (mode : String) (interval : Option String) :
    (slice_dispatch commits mode interval).isOk = ! slice_config_error mode interval := by
  unfold slice_dispatch slice_config_error
  by_cases h1 : pyLower mode = "commit"
  · simp [h1, Except.isOk, Except.toBool]
  · by_cases h2 : pyLower mode = "tag"
    · simp [h1, h2, Except.isOk, Except.toBool]
    · by_cases h3 : pyLower mode = "release"
      · simp [h1, h2, h3, Except.isOk, Except.toBool]
      · by_cases h4 : pyLower mode = "time-interval"
        · have hcls := parse_interval_classify interval
          simp only [h1, h2, h3, h4, Bool.or_self, if_false, if_true, Bool.or_false,
            Bool.false_or, if_neg, ite_false, ite_true]
          cases hp : parse_interval interval with
          | error e =>
            rw [hp] at hcls
            simp only [Except.isOk, Except.toBool]
            simp at hcls
            simp [hcls]
          | ok o =>
            rw [hp] at hcls
            cases o with
            | none =>
              simp only [Except.isOk, Except.toBool]
              simp at hcls
              simp [hcls]
            | some d =>
              simp only [Except.isOk, Except.toBool]
              simp at hcls
              simp [hcls]
        · simp [h1, h2, h3, h4, Except.isOk, Except.toBool]

/-- C9 (amended theorem): for every commit list and cap, `slice_commits`
returns normally exactly when the configuration is accepted —
equivalently, it raises exactly when the lowercased mode is unknown, or the
mode is time-interval and the interval specifier is absent, empty, lacks a
d/w/h/m suffix after trimming and lowercasing, has a prefix Python's
`int()` rejects, or denotes a value outside the `timedelta` constructor's
range (normalized day count beyond ±999999999, its `OverflowError`).  The
error never depends on the commits or the cap, so it surfaces before any
per-commit work. -/
theorem slice_commits_raises_exactly (commits : List Commit) (mode : String)
    (interval : Option String) (limit : Option Int) :
    (slice_commits commits mode interval limit).isOk = ! slice_config_error mode interval := by
  unfold slice_commits
  rw [← slice_dispatch_isOk commits mode interval]
  cases slice_dispatch commits mode interval <;> rfl

/-- C9 (counterexample): both directions of the claimed iff fail.  The
specifier `30D` carries a suffix other than d/w/h/m, so per the claim it
must be a configuration error, but the code lowercases the specifier first
and accepts it; the specifier `1000000000d` is an integer immediately
followed by `d`, so per the claim the call returns normally, but the
`timedelta` constructor overflows (day magnitude above 999999999) and the
code raises. -/
theorem slice_commits_uppercase_suffix_counterexample :
    spec_interval_valid "30D" = false ∧
    (slice_commits [] "time-interval" (some "30D") none).isOk = true ∧
    spec_interval_valid "1000000000d" = true ∧
    (slice_commits [] "time-interval" (some "1000000000d") none).isOk = false := by
  refine ⟨by decide, by decide, by decide, by decide⟩
